import Mathlib

/-!
Verification of the retail-orders data-cleaning pipeline
(`sql/clean_data.py`): ingestion of a delimited raw file with
placeholder missing-value tokens, column-name normalization, derived
monetary and temporal fields, categorical cleaning, and export.

The dataframe is embedded as an ordered association list of columns,
each column a list of cells; numeric cells carry exact rationals, and
missing values (`NaN`/`NaT`) are an explicit `Cell.na` constructor that
propagates through arithmetic the way pandas propagates `NaN`.
-/

set_option maxRecDepth 10000

namespace RetailClean

/-! ### ASCII character helpers (Python `str.lower`, `str.title`, `str.strip`) -/

/-- ASCII uppercase test, on code points. -/
def isAsciiUpper (c : Char) : Bool := decide (65 ≤ c.toNat ∧ c.toNat ≤ 90)

/-- ASCII letter test, on code points. -/
def isAsciiAlpha (c : Char) : Bool :=
  decide ((65 ≤ c.toNat ∧ c.toNat ≤ 90) ∨ (97 ≤ c.toNat ∧ c.toNat ≤ 122))

/-- Lower-case one ASCII character (what Python's `str.lower` does on ASCII). -/
def lowerChar (c : Char) : Char :=
  if 65 ≤ c.toNat ∧ c.toNat ≤ 90 then Char.ofNat (c.toNat + 32) else c

/-- Upper-case one ASCII character. -/
def upperChar (c : Char) : Char :=
  if 97 ≤ c.toNat ∧ c.toNat ≤ 122 then Char.ofNat (c.toNat - 32) else c

/-- Python whitespace characters stripped by `str.strip()`. -/
def isPySpace (c : Char) : Bool :=
  c = ' ' || c = '\t' || c = '\n' || c = '\x0d' || c = '\x0b' || c = '\x0c'

/-- `str.strip()`: drop leading and trailing whitespace. -/
def stripChars (l : List Char) : List Char :=
  ((l.dropWhile isPySpace).reverse.dropWhile isPySpace).reverse

/-- `str.title()`: a letter is upper-cased when the previous character is
not a letter, lower-cased otherwise; the flag carries whether the
previous character was a letter. -/
def titleChars : List Char → Bool → List Char
  | [], _ => []
  | c :: cs, prevAlpha =>
    (if isAsciiAlpha c then (if prevAlpha then lowerChar c else upperChar c) else c)
      :: titleChars cs (isAsciiAlpha c)

/-- `s.strip().title()` as applied to the categorical columns. -/
def stripTitle (s : String) : String := ⟨titleChars (stripChars s.data) false⟩

/-- `df.columns.str.lower().str.replace(' ', '_')` applied to one header. -/
def normalizeName (s : String) : String :=
  ⟨(s.data.map lowerChar).map fun c => if c = ' ' then '_' else c⟩

/-! ### Cells and dataframes -/

/-- One cell of the dataframe: missing (`NaN`/`NaT`), a string, an exact
rational standing for a pandas numeric value, or a calendar date. -/
inductive Cell where
  | na
  | str (s : String)
  | num (q : ℚ)
  | date (y m d : ℕ)
deriving DecidableEq, Repr

/-- Numeric view of a cell. -/
def Cell.num? : Cell → Option ℚ
  | .num q => some q
  | _ => none

/-- Element-wise product; `NaN` (and any non-numeric cell) propagates as `NaN`. -/
def Cell.mul (a b : Cell) : Cell :=
  match a.num?, b.num? with
  | some x, some y => .num (x * y)
  | _, _ => .na

/-- Element-wise difference with `NaN` propagation. -/
def Cell.sub (a b : Cell) : Cell :=
  match a.num?, b.num? with
  | some x, some y => .num (x - y)
  | _, _ => .na

/-- Element-wise quotient with `NaN` propagation.  Division by zero is
mapped to `na`; in the pipeline it only ever happens under the
`sale_price != 0` guard, which discards the value (IEEE floats would
give `inf`/`NaN` there, equally discarded). -/
def Cell.div (a b : Cell) : Cell :=
  match a.num?, b.num? with
  | some x, some y => if y = 0 then .na else .num (x / y)
  | _, _ => .na

/-- The vectorized comparison `!= 0`: `NaN != 0` (and any non-numeric
cell compared to `0`) is `True` in pandas. -/
def Cell.neZero (a : Cell) : Bool :=
  match a with
  | .num q => decide (q ≠ 0)
  | _ => true

/-- Floor of a rational (the denominator is positive, so Euclidean
division of the numerator by it is the floor). -/
def ratFloor (x : ℚ) : ℤ := Int.ediv x.num x.den

/-- Round-half-to-even to an integer, as numpy's `round` does. -/
def roundHalfEven (x : ℚ) : ℤ :=
  let f := ratFloor x
  let r := x - (f : ℚ)
  if r < 1/2 then f else if 1/2 < r then f + 1 else if f % 2 = 0 then f else f + 1

/-- `.round(2)` on a cell, `NaN` passing through. -/
def Cell.round2 : Cell → Cell
  | .num q => .num ((roundHalfEven (q * 100) : ℚ) / 100)
  | _ => .na

/-- Full English month name, as `strftime('%B')` renders it. -/
def monthName : ℕ → String
  | 1 => "January" | 2 => "February" | 3 => "March" | 4 => "April"
  | 5 => "May" | 6 => "June" | 7 => "July" | 8 => "August"
  | 9 => "September" | 10 => "October" | 11 => "November" | 12 => "December"
  | _ => ""

/-- `.dt.year`; `NaT` gives `NaN`. -/
def Cell.yearOf : Cell → Cell
  | .date y _ _ => .num y
  | _ => .na

/-- `.dt.month`. -/
def Cell.monthOf : Cell → Cell
  | .date _ m _ => .num m
  | _ => .na

/-- `.dt.strftime('%B')`. -/
def Cell.monthNameOf : Cell → Cell
  | .date _ m _ => .str (monthName m)
  | _ => .na

/-- `.dt.quarter` (Jan-Mar is 1, ..., Oct-Dec is 4). -/
def Cell.quarterOf : Cell → Cell
  | .date _ m _ => .num (((m + 2) / 3 : ℕ) : ℚ)
  | _ => .na

/-- `.str.strip().str.title()` on one cell of an object-dtype column:
missing stays missing, and a non-string element under the `.str`
accessor yields `NaN`.  Whether the accessor is usable at all is a
column-level dtype question, modelled by `strAccessorClean` below: a
column with no string at all is not object-dtyped and makes `.str`
raise, so this cell map is only reached through that check. -/
def Cell.cleanCat : Cell → Cell
  | .str s => .str (stripTitle s)
  | _ => .na

/-- Is the cell a string? -/
def Cell.isStr : Cell → Bool
  | .str _ => true
  | _ => false

/-- A dataframe: columns in order, each a name with its cells. -/
abbrev DataFrame := List (String × List Cell)

/-- The errors the pipeline can raise: an unreadable input file, an
unwritable output path (`OSError` from `to_csv`), a missing column
(`KeyError`), an `order_date` cell that does not parse, or the
`AttributeError` of the `.str` accessor on a non-string column. -/
inductive PipeError where
  | readError
  | writeError
  | keyError (col : String)
  | badDate (s : String)
  | attributeError (col : String)
deriving DecidableEq, Repr

/-- The ordered column names. -/
def schema (df : DataFrame) : List String := df.map (·.1)

/-- Column lookup, `df[name]` as an Option. -/
def getCol? : DataFrame → String → Option (List Cell)
  | [], _ => none
  | (m, c) :: rest, n => if m = n then some c else getCol? rest n

/-- Column lookup; a missing column is a `KeyError`. -/
def getColE (df : DataFrame) (n : String) : Except PipeError (List Cell) :=
  match getCol? df n with
  | some c => .ok c
  | none => .error (.keyError n)

/-- `df[name] = col`: replace the column in place if the name exists,
otherwise append it at the end. -/
def setCol : DataFrame → String → List Cell → DataFrame
  | [], n, c => [(n, c)]
  | (m, d) :: rest, n, c =>
    if m = n then (m, c) :: rest else (m, d) :: setCol rest n c

/-- The effect of `setCol` on the schema alone. -/
def setSchema : List String → String → List String
  | [], n => [n]
  | m :: rest, n => if m = n then m :: rest else m :: setSchema rest n

/-- Every column holds exactly `n` cells. -/
def wellFormed (df : DataFrame) (n : ℕ) : Prop := ∀ p ∈ df, p.2.length = n

/-- `len(df)`: the row count, read off the first column. -/
def nRows (df : DataFrame) : ℕ := ((df.headD ("", [])).2).length

/-! ### Ingestion (`load_raw_data` / `pd.read_csv`) -/

/-- The explicit placeholder tokens passed to `read_csv` via `na_values`. -/
def na_values : List String := ["Not Available", "unknown", "NA", "N/A", ""]

/-- The tokens `read_csv` treats as missing by default; they stay active
(`keep_default_na=True` is the default) and are unioned with `na_values`. -/
def defaultNaValues : List String :=
  ["", "#N/A", "#N/A N/A", "#NA", "-1.#IND", "-1.#QNAN", "-NaN", "-nan",
   "1.#IND", "1.#QNAN", "<NA>", "N/A", "NA", "NULL", "NaN", "None", "n/a",
   "nan", "null"]

/-- Missing-value screening of one raw cell: `none` when the text is a
placeholder token, the text itself otherwise. -/
def parseRawCell (s : String) : Option String :=
  if s ∈ na_values ∨ s ∈ defaultNaValues then none else some s

/-- Split a character list on a separator character; the delimited-text
separators here (`\n`, `,`, `-`, `.`) are all single characters. -/
def splitOnChar (sep : Char) : List Char → List (List Char)
  | [] => [[]]
  | c :: cs =>
    if c = sep then [] :: splitOnChar sep cs
    else
      match splitOnChar sep cs with
      | [] => [[c]]
      | g :: gs => (c :: g) :: gs

/-- Split a string on a single-character separator. -/
def splitStr (sep : Char) (s : String) : List String :=
  (splitOnChar sep s.data).map String.mk

/-- Read a non-empty all-digit character list as a number. -/
def digitsToNat? (l : List Char) : Option ℕ :=
  if l ≠ [] ∧ l.all Char.isDigit then
    some (l.foldl (fun a c => 10 * a + (c.toNat - 48)) 0)
  else none

/-- Unsigned decimal literal: integer part, optional fraction part. -/
def parseUnsigned (l : List Char) : Option ℚ :=
  match splitOnChar '.' l with
  | [ip] => (digitsToNat? ip).map fun n => (n : ℚ)
  | [ip, fp] =>
    if ip = [] then
      (digitsToNat? fp).map fun f => (f : ℚ) / ((10 : ℚ) ^ fp.length)
    else
      match digitsToNat? ip, digitsToNat? fp with
      | some n, some f => some ((n : ℚ) + (f : ℚ) / ((10 : ℚ) ^ fp.length))
      | some n, none => if fp = [] then some (n : ℚ) else none
      | _, _ => none
  | _ => none

/-- Parse a decimal literal (optional sign, optional fraction part) to an
exact rational, the way `read_csv` converts numeric tokens. -/
def parseNum? (s : String) : Option ℚ :=
  match s.data with
  | '-' :: rest => (parseUnsigned rest).map fun q => -q
  | '+' :: rest => parseUnsigned rest
  | l => parseUnsigned l

/-- Columnar type inference: a column whose non-missing tokens all parse
as numbers becomes numeric, otherwise its tokens stay strings; missing
tokens become `na` either way. -/
def inferColumn (raw : List String) : List Cell :=
  let opts := raw.map parseRawCell
  if opts.all fun o => match o with | none => true | some t => (parseNum? t).isSome then
    opts.map fun o =>
      match o with
      | none => .na
      | some t => match parseNum? t with | some q => .num q | none => .na
  else
    opts.map fun o => match o with | none => .na | some t => .str t

/-- Split a file into lines, skipping blank lines as `read_csv` does. -/
def splitLines (s : String) : List String := (splitStr '\n' s).filter (· ≠ "")

/-- Split one delimited line into fields. -/
def splitFields (s : String) : List String := splitStr ',' s

/-- `pd.read_csv` on raw text: the first line is the header, every later
line one row; cells are screened for placeholder tokens and columns
typed by inference. -/
def read_csv (text : String) : DataFrame :=
  match splitLines text with
  | [] => []
  | hdr :: rows =>
    (splitFields hdr).enum.map fun p =>
      (p.2, inferColumn (rows.map fun r => (splitFields r).getD p.1 ""))

/-! ### Date parsing (`pd.to_datetime(..., format='%Y-%m-%d')`) -/

/-- Day count of a calendar month, with the Gregorian leap rule. -/
def daysInMonth (y m : ℕ) : ℕ :=
  if m = 2 then (if y % 4 = 0 ∧ (y % 100 ≠ 0 ∨ y % 400 = 0) then 29 else 28)
  else if m = 4 ∨ m = 6 ∨ m = 9 ∨ m = 11 then 30 else 31

/-- Parse `%Y-%m-%d`: three dash-separated digit groups forming a valid
calendar date. -/
def parseYMD (s : String) : Option (ℕ × ℕ × ℕ) :=
  match splitOnChar '-' s.data with
  | [ys, ms, ds] =>
    match digitsToNat? ys, digitsToNat? ms, digitsToNat? ds with
    | some y, some m, some d =>
      if ys.length ≤ 4 ∧ ms.length ≤ 2 ∧ ds.length ≤ 2 ∧
         1 ≤ m ∧ m ≤ 12 ∧ 1 ≤ d ∧ d ≤ daysInMonth y m
      then some (y, m, d) else none
    | _, _, _ => none
  | _ => none

/-- `to_datetime` on one cell: `NaN` becomes `NaT`, a date stays a date,
a string must parse under the fixed format, anything else fails. -/
def to_datetime (c : Cell) : Except PipeError Cell :=
  match c with
  | .na => .ok .na
  | .date y m d => .ok (.date y m d)
  | .str s =>
    match parseYMD s with
    | some (y, m, d) => .ok (.date y m d)
    | none => .error (.badDate s)
  | .num q => .error (.badDate (toString q.num))

/-! ### The transformation stages (`transform_columns`) -/

/-- `df.columns = df.columns.str.lower().str.replace(' ', '_')`. -/
def renameColumns (df : DataFrame) : DataFrame :=
  df.map fun p => (normalizeName p.1, p.2)

/-- `df['order_date'] = pd.to_datetime(df['order_date'], format='%Y-%m-%d')`. -/
def convertOrderDate (df : DataFrame) : Except PipeError DataFrame := do
  let c ← getColE df "order_date"
  let c' ← c.mapM to_datetime
  pure (setCol df "order_date" c')

/-- `df['discount'] = df['list_price'] * df['discount_percent'] / 100`. -/
def addDiscount (df : DataFrame) : Except PipeError DataFrame := do
  let lp ← getColE df "list_price"
  let dp ← getColE df "discount_percent"
  pure (setCol df "discount"
    (List.zipWith (fun a b => Cell.div (Cell.mul a b) (.num 100)) lp dp))

/-- `df['sale_price'] = df['list_price'] - df['discount']`. -/
def addSalePrice (df : DataFrame) : Except PipeError DataFrame := do
  let lp ← getColE df "list_price"
  let dc ← getColE df "discount"
  pure (setCol df "sale_price" (List.zipWith Cell.sub lp dc))

/-- `df['profit'] = df['sale_price'] - df['cost_price']`. -/
def addProfit (df : DataFrame) : Except PipeError DataFrame := do
  let sp ← getColE df "sale_price"
  let cp ← getColE df "cost_price"
  pure (setCol df "profit" (List.zipWith Cell.sub sp cp))

/-- One element of the `np.where(df['sale_price'] != 0, ..., 0)` vector. -/
def marginCell (s p : Cell) : Cell :=
  if Cell.neZero s then Cell.round2 (Cell.mul (Cell.div p s) (.num 100)) else .num 0

/-- `df['profit_margin'] = np.where(df['sale_price'] != 0,
(df['profit'] / df['sale_price'] * 100).round(2), 0)`. -/
def addProfitMargin (df : DataFrame) : Except PipeError DataFrame := do
  let sp ← getColE df "sale_price"
  let pf ← getColE df "profit"
  pure (setCol df "profit_margin" (List.zipWith marginCell sp pf))

/-- The four `.dt` extractions of `year`, `month`, `month_name`, `quarter`. -/
def addDateParts (df : DataFrame) : Except PipeError DataFrame := do
  let od ← getColE df "order_date"
  let df := setCol df "year" (od.map Cell.yearOf)
  let df := setCol df "month" (od.map Cell.monthOf)
  let df := setCol df "month_name" (od.map Cell.monthNameOf)
  pure (setCol df "quarter" (od.map Cell.quarterOf))

/-- Whether the `.str` accessor accepts the column.  The accessor
validates the inferred dtype: an object column holding at least one
string (missing values beside it are fine) passes, and so does an empty
column; a non-empty column with no string at all—an all-missing column
is `float64` after `read_csv`, a numeric or datetime column likewise
non-object—raises `AttributeError`. -/
def strDtypeOk (col : List Cell) : Bool := col.isEmpty || col.any Cell.isStr

/-- One source line `df[name].str.strip().str.title()`: validate the
accessor on the column dtype, then map the cells.  The second accessor
use (on the stripped column) cannot fail when the first passed, since
stripping keeps string cells strings. -/
def strAccessorClean (name : String) (col : List Cell) :
    Except PipeError (List Cell) :=
  if strDtypeOk col then .ok (col.map Cell.cleanCat)
  else .error (.attributeError name)

/-- The three `.str.strip().str.title()` lines on `category`,
`sub_category` and `region`. -/
def cleanCategoricals (df : DataFrame) : Except PipeError DataFrame := do
  let c ← getColE df "category"
  let c' ← strAccessorClean "category" c
  let df := setCol df "category" c'
  let s ← getColE df "sub_category"
  let s' ← strAccessorClean "sub_category" s
  let df := setCol df "sub_category" s'
  let r ← getColE df "region"
  let r' ← strAccessorClean "region" r
  pure (setCol df "region" r')

/-- The body of `transform_columns`, stage by stage in source order
(`df = df.copy()` is the identity on the value; the aliasing it
prevents is modelled separately by `transformColumnsRef`). -/
def transform_columns (df : DataFrame) : Except PipeError DataFrame := do
  let df := renameColumns df
  let df ← convertOrderDate df
  let df ← addDiscount df
  let df ← addSalePrice df
  let df ← addProfit df
  let df ← addProfitMargin df
  let df ← addDateParts df
  cleanCategoricals df

/-! ### Export and the full pipeline (`clean_retail_orders`) -/

/-- Two-digit zero padding for date rendering. -/
def pad2 (n : ℕ) : String := if n < 10 then "0" ++ toString n else toString n

/-- Render one cell for `to_csv` (numeric formatting is not load-bearing). -/
def cellToString : Cell → String
  | .na => ""
  | .str s => s
  | .num q => if q.den = 1 then toString q.num else toString q.num ++ "/" ++ toString q.den
  | .date y m d => toString y ++ "-" ++ pad2 m ++ "-" ++ pad2 d

/-- Interleave a separator between strings. -/
def joinWith (sep : String) : List String → String
  | [] => ""
  | [x] => x
  | x :: xs => x ++ sep ++ joinWith sep xs

/-- The lines `to_csv(..., index=False)` writes: a header naming every
column in order, then one line per row. -/
def toCsvLines (df : DataFrame) : List String :=
  joinWith "," (schema df) ::
    (List.range (nRows df)).map fun r =>
      joinWith "," (df.map fun p => cellToString (p.2.getD r .na))

/-- The full text written by `to_csv`. -/
def toCsv (df : DataFrame) : String := joinWith "\n" (toCsvLines df)

/-- The file system the pipeline runs against: file contents by path,
plus the set of paths the process may write. -/
structure FS where
  files : List (String × String)
  writable : List String
deriving DecidableEq, Repr

/-- Contents at a path. -/
def getFile : List (String × String) → String → Option String
  | [], _ => none
  | (q, c) :: rest, p => if q = p then some c else getFile rest p

/-- Create or overwrite the file at a path. -/
def setFile : List (String × String) → String → String → List (String × String)
  | [], p, c => [(p, c)]
  | (q, d) :: rest, p, c =>
    if q = p then (p, c) :: rest else (q, d) :: setFile rest p c

/-- Read a file. -/
def readFile (fs : FS) (p : String) : Option String := getFile fs.files p

/-- Write a file; an unwritable path raises the `OSError` that
`to_csv` surfaces. -/
def writeFile (fs : FS) (p c : String) : Except PipeError FS :=
  if p ∈ fs.writable then .ok ⟨setFile fs.files p c, fs.writable⟩
  else .error .writeError

/-- `load_raw_data`: read the raw file and parse it with the placeholder
token handling of `read_csv`. -/
def load_raw_data (fs : FS) (p : String) : Except PipeError DataFrame :=
  match readFile fs p with
  | none => .error .readError
  | some t => .ok (read_csv t)

/-- `clean_retail_orders`: load, transform, save, and return the cleaned
frame.  The write has no handler around it, so a write failure
propagates and nothing is returned. -/
def clean_retail_orders (fs : FS) (input_path output_path : String) :
    Except PipeError (FS × DataFrame) := do
  let df ← load_raw_data fs input_path
  let df ← transform_columns df
  let fs' ← writeFile fs output_path (toCsv df)
  pure (fs', df)

/-! ### The `df = df.copy()` aliasing model

`transform_columns` first copies its argument and then mutates only the
copy.  The heap is a list of frames addressed by position; the function
receives an address, allocates the copy at a fresh address, and performs
every source line as a read-modify-write of that fresh address. -/

/-- `transform_columns` on an addressed heap of dataframes. -/
def transformColumnsRef (h : List DataFrame) (i : ℕ) :
    Except PipeError (List DataFrame × ℕ) := do
  let a := h.length
  let h1 := h ++ [h.getD i []]
  let h2 := h1.set a (renameColumns (h1.getD a []))
  let d3 ← convertOrderDate (h2.getD a [])
  let h3 := h2.set a d3
  let d4 ← addDiscount (h3.getD a [])
  let h4 := h3.set a d4
  let d5 ← addSalePrice (h4.getD a [])
  let h5 := h4.set a d5
  let d6 ← addProfit (h5.getD a [])
  let h6 := h5.set a d6
  let d7 ← addProfitMargin (h6.getD a [])
  let h7 := h6.set a d7
  let d8 ← addDateParts (h7.getD a [])
  let h8 := h7.set a d8
  let d9 ← cleanCategoricals (h8.getD a [])
  pure (h8.set a d9, a)

/-! ### Derived-column combinators and schemas -/

/-- The `discount` column as a function of the `list_price` and
`discount_percent` columns. -/
def discountCol (lp dp : List Cell) : List Cell :=
  List.zipWith (fun a b => Cell.div (Cell.mul a b) (.num 100)) lp dp

/-- The `sale_price` column. -/
def salePriceCol (lp dp : List Cell) : List Cell :=
  List.zipWith Cell.sub lp (discountCol lp dp)

/-- The `profit` column. -/
def profitCol (lp dp cp : List Cell) : List Cell :=
  List.zipWith Cell.sub (salePriceCol lp dp) cp

/-- The `profit_margin` column. -/
def profitMarginCol (lp dp cp : List Cell) : List Cell :=
  List.zipWith marginCell (salePriceCol lp dp) (profitCol lp dp cp)

/-- The raw header names after normalization (the expected raw schema). -/
def rawSchema : List String :=
  ["order_id", "order_date", "ship_mode", "segment", "country", "city",
   "state", "postal_code", "region", "category", "sub_category", "product_id",
   "cost_price", "list_price", "quantity", "discount_percent"]

/-- The canonical column set and order of the export contract. -/
def canonicalSchema : List String :=
  ["order_id", "order_date", "ship_mode", "segment", "country", "city",
   "state", "postal_code", "region", "category", "sub_category", "product_id",
   "cost_price", "list_price", "quantity", "discount_percent", "discount",
   "sale_price", "profit", "profit_margin", "year", "month", "month_name",
   "quarter"]

/-- A character acceptable in a normalized column name: not a space and
not an ASCII capital. -/
def cleanChar (c : Char) : Bool := !(c == ' ') && !(isAsciiUpper c)

/-- A normalized column name: lowercase, no spaces. -/
def noSpaceNoUpper (s : String) : Bool := s.data.all cleanChar

/-! ### Concrete data used to instantiate the theorems

The raw row is the first fixture row of the repository's test suite
(`list_price=260`, `discount_percent=2`, `cost_price=240`); the zero-price
row is its division-by-zero edge-case fixture. -/

/-- A one-row raw extract with the full expected header. -/
def exampleCsv : String :=
  "Order Id,Order Date,Ship Mode,Segment,Country,City,State,Postal Code,Region,Category,Sub Category,Product Id,cost price,List Price,Quantity,Discount Percent\n1,2023-03-01,Second Class,Consumer,United States,Henderson,Kentucky,42420,South,Furniture,Bookcases,FUR-BO-10001798,240,260,2,2"

/-- A file system holding the raw extract, with the output path writable. -/
def exampleFS : FS := ⟨[("orders.csv", exampleCsv)], ["orders_clean.csv"]⟩

/-- The transformed frame of the example extract. -/
def exampleOut : DataFrame :=
  (transform_columns (read_csv exampleCsv)).toOption.getD []

/-- The file system after the example pipeline run. -/
def exampleFS2 : FS :=
  ((clean_retail_orders exampleFS "orders.csv" "orders_clean.csv").toOption.map
    (·.1)).getD ⟨[], []⟩

/-- A one-row extract whose prices are zero (`sale_price = 0`). -/
def zeroCsv : String :=
  "Order Id,Order Date,Ship Mode,Segment,Country,City,State,Postal Code,Region,Category,Sub Category,Product Id,cost price,List Price,Quantity,Discount Percent\n1,2023-01-01,Standard Class,Consumer,United States,City,State,12345,South,Furniture,Chairs,PRD-001,0,0,1,5"

/-- The transformed frame of the zero-price extract. -/
def zeroOut : DataFrame :=
  (transform_columns (read_csv zeroCsv)).toOption.getD []

/-- A file system whose output path is not writable. -/
def roFS : FS := ⟨[("orders.csv", exampleCsv)], []⟩

/-- A small frame with categorical columns, one cell needing trimming and
title-casing and one missing. -/
def catDf : DataFrame :=
  [("category", [Cell.str " office supplies ", Cell.na]),
   ("sub_category", [Cell.str "Bookcases", Cell.str "Chairs"]),
   ("region", [Cell.str "South", Cell.str "West"]),
   ("city", [Cell.str "Henderson", Cell.str "Houston"])]

/-- The heap-model run on a one-frame heap. -/
def refRun : Except PipeError (List DataFrame × ℕ) :=
  transformColumnsRef [read_csv exampleCsv] 0

/-- The heap after the heap-model run. -/
def refHeap : List DataFrame := (refRun.toOption.map (·.1)).getD []

/-- The address of the result frame of the heap-model run. -/
def refAddr : ℕ := (refRun.toOption.map (·.2)).getD 0

/-! ### Basic lemmas: Except bind, columns, schemas, lengths -/

@[simp] theorem except_bind_ok (a : α) (f : α → Except ε β) :
    (Except.ok a >>= f) = f a := rfl

@[simp] theorem except_bind_error (e : ε) (f : α → Except ε β) :
    ((Except.error e : Except ε α) >>= f) = .error e := rfl

@[simp] theorem except_pure (a : α) : (pure a : Except ε α) = .ok a := rfl

theorem getCol?_setCol_self (df : DataFrame) (n : String) (c : List Cell) :
    getCol? (setCol df n c) n = some c := by
  induction df with
  | nil => simp [setCol, getCol?]
  | cons p rest ih =>
    obtain ⟨m, d⟩ := p
    by_cases h : m = n <;> simp [setCol, getCol?, h, ih]

theorem getCol?_setCol_ne (df : DataFrame) {m n : String} (c : List Cell)
    (h : m ≠ n) : getCol? (setCol df n c) m = getCol? df m := by
  induction df with
  | nil => simp [setCol, getCol?, Ne.symm h]
  | cons p rest ih =>
    obtain ⟨q, d⟩ := p
    by_cases hq : q = n
    · subst hq
      simp [setCol, getCol?, Ne.symm h]
    · simp [setCol, getCol?, hq, ih]

theorem schema_setCol (df : DataFrame) (n : String) (c : List Cell) :
    schema (setCol df n c) = setSchema (schema df) n := by
  induction df with
  | nil => simp [setCol, schema, setSchema]
  | cons p rest ih =>
    obtain ⟨m, d⟩ := p
    by_cases h : m = n <;> simp [setCol, schema, setSchema, h] <;>
      simpa [schema] using ih

theorem getColE_ok {df : DataFrame} {n : String} {c : List Cell} :
    getColE df n = .ok c ↔ getCol? df n = some c := by
  unfold getColE
  cases h : getCol? df n <;> simp

theorem mem_of_getCol? {df : DataFrame} {n : String} {c : List Cell}
    (h : getCol? df n = some c) : (n, c) ∈ df := by
  induction df with
  | nil => simp [getCol?] at h
  | cons p rest ih =>
    obtain ⟨m, d⟩ := p
    by_cases hm : m = n
    · subst hm
      simp [getCol?] at h
      simp [h]
    · simp [getCol?, hm] at h
      exact List.mem_cons_of_mem _ (ih h)

theorem wellFormed_setCol {df : DataFrame} {k : ℕ} {c : List Cell}
    (h : wellFormed df k) (hc : c.length = k) (n : String) :
    wellFormed (setCol df n c) k := by
  induction df with
  | nil =>
    intro p hp
    simp [setCol] at hp
    simp [hp, hc]
  | cons q rest ih =>
    obtain ⟨m, d⟩ := q
    intro p hp
    by_cases hm : m = n
    · simp [setCol, hm] at hp
      rcases hp with hp | hp
      · simp [hp, hc]
      · exact h p (List.mem_cons_of_mem _ hp)
    · simp only [setCol, if_neg hm] at hp
      rcases List.mem_cons.1 hp with hp | hp
      · exact h p (hp ▸ List.mem_cons_self _ _)
      · exact ih (fun q hq => h q (List.mem_cons_of_mem _ hq)) p hp

theorem wellFormed_getCol? {df : DataFrame} {k : ℕ} {n : String}
    {c : List Cell} (h : wellFormed df k) (hg : getCol? df n = some c) :
    c.length = k := h (n, c) (mem_of_getCol? hg)

theorem mapM_except_length {α β ε : Type} (f : α → Except ε β) :
    ∀ (l : List α) (l' : List β), l.mapM f = .ok l' → l'.length = l.length := by
  intro l
  induction l with
  | nil =>
    intro l' h
    simp only [List.mapM_nil, except_pure] at h
    cases h
    rfl
  | cons a as ih =>
    intro l' h
    rw [List.mapM_cons] at h
    cases hf : f a <;> rw [hf] at h
    · simp at h
    · cases hm : as.mapM f <;> rw [hm] at h <;> simp at h
      cases h
      simp [ih _ hm]

theorem take_append_self (l r : List α) : (l ++ r).take l.length = l := by
  induction l with
  | nil => simp
  | cons a as ih => simp [ih]

theorem take_set_of_le (l : List α) (i n : ℕ) (x : α) (h : n ≤ i) :
    (l.set i x).take n = l.take n := by
  induction l generalizing i n with
  | nil => simp
  | cons a as ih =>
    cases i with
    | zero =>
      cases n with
      | zero => simp
      | succ n => omega
    | succ i =>
      cases n with
      | zero => simp
      | succ n => simp [List.set, List.take, ih i n (by omega)]

theorem getD_append_self (l : List α) (x d : α) :
    (l ++ [x]).getD l.length d = x := by
  induction l with
  | nil => simp
  | cons a as ih => simpa using ih

theorem getD_set_self (l : List α) (i : ℕ) (x d : α) (h : i < l.length) :
    (l.set i x).getD i d = x := by
  induction l generalizing i with
  | nil => simp at h
  | cons a as ih =>
    cases i with
    | zero => simp
    | succ i => simpa using ih i (by simpa using h)

/-! ### Inversion lemmas for the stages -/

theorem convertOrderDate_ok {df out : DataFrame}
    (h : convertOrderDate df = .ok out) :
    ∃ c c', getCol? df "order_date" = some c ∧ c.mapM to_datetime = .ok c' ∧
      out = setCol df "order_date" c' := by
  unfold convertOrderDate getColE at h
  cases h1 : getCol? df "order_date" <;> rw [h1] at h
  · simp at h
  · rename_i c
    simp only [except_bind_ok] at h
    cases h2 : c.mapM to_datetime <;> rw [h2] at h
    · simp at h
    · simp only [except_bind_ok, except_pure, Except.ok.injEq] at h
      exact ⟨c, _, rfl, h2, h.symm⟩

theorem addDiscount_ok {df out : DataFrame} (h : addDiscount df = .ok out) :
    ∃ lp dp, getCol? df "list_price" = some lp ∧
      getCol? df "discount_percent" = some dp ∧
      out = setCol df "discount"
        (List.zipWith (fun a b => Cell.div (Cell.mul a b) (.num 100)) lp dp) := by
  unfold addDiscount getColE at h
  cases h1 : getCol? df "list_price" <;> rw [h1] at h
  · simp at h
  · cases h2 : getCol? df "discount_percent" <;> rw [h2] at h
    · simp at h
    · simp only [except_bind_ok, except_pure, Except.ok.injEq] at h
      exact ⟨_, _, rfl, rfl, h.symm⟩

theorem addSalePrice_ok {df out : DataFrame} (h : addSalePrice df = .ok out) :
    ∃ lp dc, getCol? df "list_price" = some lp ∧
      getCol? df "discount" = some dc ∧
      out = setCol df "sale_price" (List.zipWith Cell.sub lp dc) := by
  unfold addSalePrice getColE at h
  cases h1 : getCol? df "list_price" <;> rw [h1] at h
  · simp at h
  · cases h2 : getCol? df "discount" <;> rw [h2] at h
    · simp at h
    · simp only [except_bind_ok, except_pure, Except.ok.injEq] at h
      exact ⟨_, _, rfl, rfl, h.symm⟩

theorem addProfit_ok {df out : DataFrame} (h : addProfit df = .ok out) :
    ∃ sp cp, getCol? df "sale_price" = some sp ∧
      getCol? df "cost_price" = some cp ∧
      out = setCol df "profit" (List.zipWith Cell.sub sp cp) := by
  unfold addProfit getColE at h
  cases h1 : getCol? df "sale_price" <;> rw [h1] at h
  · simp at h
  · cases h2 : getCol? df "cost_price" <;> rw [h2] at h
    · simp at h
    · simp only [except_bind_ok, except_pure, Except.ok.injEq] at h
      exact ⟨_, _, rfl, rfl, h.symm⟩

theorem addProfitMargin_ok {df out : DataFrame}
    (h : addProfitMargin df = .ok out) :
    ∃ sp pf, getCol? df "sale_price" = some sp ∧
      getCol? df "profit" = some pf ∧
      out = setCol df "profit_margin" (List.zipWith marginCell sp pf) := by
  unfold addProfitMargin getColE at h
  cases h1 : getCol? df "sale_price" <;> rw [h1] at h
  · simp at h
  · cases h2 : getCol? df "profit" <;> rw [h2] at h
    · simp at h
    · simp only [except_bind_ok, except_pure, Except.ok.injEq] at h
      exact ⟨_, _, rfl, rfl, h.symm⟩

theorem addDateParts_ok {df out : DataFrame} (h : addDateParts df = .ok out) :
    ∃ od, getCol? df "order_date" = some od ∧
      out = setCol (setCol (setCol (setCol df "year" (od.map Cell.yearOf))
        "month" (od.map Cell.monthOf)) "month_name" (od.map Cell.monthNameOf))
        "quarter" (od.map Cell.quarterOf) := by
  unfold addDateParts getColE at h
  cases h1 : getCol? df "order_date" <;> rw [h1] at h
  · simp at h
  · simp only [except_bind_ok, except_pure, Except.ok.injEq] at h
    exact ⟨_, rfl, h.symm⟩

theorem strAccessorClean_ok {name : String} {col col' : List Cell}
    (h : strAccessorClean name col = .ok col') :
    strDtypeOk col = true ∧ col' = col.map Cell.cleanCat := by
  unfold strAccessorClean at h
  split at h
  · cases h
    exact ⟨by assumption, rfl⟩
  · cases h

theorem cleanCategoricals_ok {df out : DataFrame}
    (h : cleanCategoricals df = .ok out) :
    ∃ c s r, getCol? df "category" = some c ∧
      getCol? df "sub_category" = some s ∧
      getCol? df "region" = some r ∧
      strDtypeOk c = true ∧ strDtypeOk s = true ∧ strDtypeOk r = true ∧
      out = setCol (setCol (setCol df "category" (c.map Cell.cleanCat))
        "sub_category" (s.map Cell.cleanCat)) "region" (r.map Cell.cleanCat) := by
  unfold cleanCategoricals getColE at h
  cases h1 : getCol? df "category" <;> rw [h1] at h
  · simp at h
  rename_i c
  simp only [except_bind_ok] at h
  cases hA : strAccessorClean "category" c <;> rw [hA] at h
  · simp at h
  rename_i c'
  obtain ⟨hd1, rfl⟩ := strAccessorClean_ok hA
  simp only [except_bind_ok] at h
  cases h2 : getCol? (setCol df "category" (c.map Cell.cleanCat))
      "sub_category" <;> rw [h2] at h
  · simp at h
  rename_i s
  simp only [except_bind_ok] at h
  cases hB : strAccessorClean "sub_category" s <;> rw [hB] at h
  · simp at h
  rename_i s'
  obtain ⟨hd2, rfl⟩ := strAccessorClean_ok hB
  simp only [except_bind_ok] at h
  cases h3 : getCol? (setCol (setCol df "category" (c.map Cell.cleanCat))
      "sub_category" (s.map Cell.cleanCat)) "region" <;> rw [h3] at h
  · simp at h
  rename_i r
  simp only [except_bind_ok] at h
  cases hC : strAccessorClean "region" r <;> rw [hC] at h
  · simp at h
  rename_i r'
  obtain ⟨hd3, rfl⟩ := strAccessorClean_ok hC
  simp only [except_bind_ok, except_pure, Except.ok.injEq] at h
  rw [getCol?_setCol_ne _ _ (by decide)] at h2
  rw [getCol?_setCol_ne _ _ (by decide),
      getCol?_setCol_ne _ _ (by decide)] at h3
  exact ⟨c, _, _, rfl, h2, h3, hd1, hd2, hd3, h.symm⟩

theorem transform_columns_ok {df out : DataFrame}
    (h : transform_columns df = .ok out) :
    ∃ d1 d2 d3 d4 d5 d6,
      convertOrderDate (renameColumns df) = .ok d1 ∧
      addDiscount d1 = .ok d2 ∧
      addSalePrice d2 = .ok d3 ∧
      addProfit d3 = .ok d4 ∧
      addProfitMargin d4 = .ok d5 ∧
      addDateParts d5 = .ok d6 ∧
      cleanCategoricals d6 = .ok out := by
  unfold transform_columns at h
  dsimp only at h
  cases h1 : convertOrderDate (renameColumns df) <;> rw [h1] at h
  · simp at h
  · simp only [except_bind_ok] at h
    rename_i d1
    cases h2 : addDiscount d1 <;> rw [h2] at h
    · simp at h
    · simp only [except_bind_ok] at h
      rename_i d2
      cases h3 : addSalePrice d2 <;> rw [h3] at h
      · simp at h
      · simp only [except_bind_ok] at h
        rename_i d3
        cases h4 : addProfit d3 <;> rw [h4] at h
        · simp at h
        · simp only [except_bind_ok] at h
          rename_i d4
          cases h5 : addProfitMargin d4 <;> rw [h5] at h
          · simp at h
          · simp only [except_bind_ok] at h
            rename_i d5
            cases h6 : addDateParts d5 <;> rw [h6] at h
            · simp at h
            · simp only [except_bind_ok] at h
              exact ⟨_, _, _, _, _, _, rfl, h2, h3, h4, h5, h6, h⟩

theorem clean_retail_orders_ok {fs : FS} {i o : String} {fs' : FS}
    {df : DataFrame} (h : clean_retail_orders fs i o = .ok (fs', df)) :
    ∃ text, readFile fs i = some text ∧
      transform_columns (read_csv text) = .ok df ∧
      writeFile fs o (toCsv df) = .ok fs' := by
  unfold clean_retail_orders load_raw_data at h
  cases h0 : readFile fs i <;> rw [h0] at h
  · simp at h
  · simp only [except_bind_ok] at h
    rename_i text
    cases h1 : transform_columns (read_csv text) <;> rw [h1] at h
    · simp at h
    · simp only [except_bind_ok] at h
      rename_i tdf
      cases h2 : writeFile fs o (toCsv tdf) <;> rw [h2] at h
      · simp at h
      · simp only [except_bind_ok, except_pure, Except.ok.injEq,
          Prod.mk.injEq] at h
        obtain ⟨hfs, hdf⟩ := h
        subst hdf
        exact ⟨text, rfl, h1, hfs ▸ h2⟩

/-! ### Schema and row-count preservation through the stages -/

theorem schema_renameColumns (df : DataFrame) :
    schema (renameColumns df) = (schema df).map normalizeName := by
  simp [schema, renameColumns, List.map_map]

theorem wf_renameColumns {df : DataFrame} {k : ℕ} (h : wellFormed df k) :
    wellFormed (renameColumns df) k := by
  intro p hp
  simp only [renameColumns, List.mem_map] at hp
  obtain ⟨q, hq, rfl⟩ := hp
  exact h q hq

theorem wf_convertOrderDate {df out : DataFrame} {k : ℕ}
    (h : convertOrderDate df = .ok out) (hw : wellFormed df k) :
    wellFormed out k := by
  obtain ⟨c, c', hc, hmap, rfl⟩ := convertOrderDate_ok h
  exact wellFormed_setCol hw
    ((mapM_except_length _ _ _ hmap).trans (wellFormed_getCol? hw hc)) _

theorem wf_addDiscount {df out : DataFrame} {k : ℕ}
    (h : addDiscount df = .ok out) (hw : wellFormed df k) : wellFormed out k := by
  obtain ⟨lp, dp, hlp, hdp, rfl⟩ := addDiscount_ok h
  exact wellFormed_setCol hw
    (by simp [wellFormed_getCol? hw hlp, wellFormed_getCol? hw hdp]) _

theorem wf_addSalePrice {df out : DataFrame} {k : ℕ}
    (h : addSalePrice df = .ok out) (hw : wellFormed df k) : wellFormed out k := by
  obtain ⟨lp, dc, hlp, hdc, rfl⟩ := addSalePrice_ok h
  exact wellFormed_setCol hw
    (by simp [wellFormed_getCol? hw hlp, wellFormed_getCol? hw hdc]) _

theorem wf_addProfit {df out : DataFrame} {k : ℕ}
    (h : addProfit df = .ok out) (hw : wellFormed df k) : wellFormed out k := by
  obtain ⟨sp, cp, hsp, hcp, rfl⟩ := addProfit_ok h
  exact wellFormed_setCol hw
    (by simp [wellFormed_getCol? hw hsp, wellFormed_getCol? hw hcp]) _

theorem wf_addProfitMargin {df out : DataFrame} {k : ℕ}
    (h : addProfitMargin df = .ok out) (hw : wellFormed df k) :
    wellFormed out k := by
  obtain ⟨sp, pf, hsp, hpf, rfl⟩ := addProfitMargin_ok h
  exact wellFormed_setCol hw
    (by simp [wellFormed_getCol? hw hsp, wellFormed_getCol? hw hpf]) _

theorem wf_addDateParts {df out : DataFrame} {k : ℕ}
    (h : addDateParts df = .ok out) (hw : wellFormed df k) : wellFormed out k := by
  obtain ⟨od, hod, rfl⟩ := addDateParts_ok h
  have hk := wellFormed_getCol? hw hod
  exact wellFormed_setCol
    (wellFormed_setCol (wellFormed_setCol (wellFormed_setCol hw
      (by simp [hk]) _) (by simp [hk]) _) (by simp [hk]) _) (by simp [hk]) _

theorem wf_cleanCategoricals {df out : DataFrame} {k : ℕ}
    (h : cleanCategoricals df = .ok out) (hw : wellFormed df k) :
    wellFormed out k := by
  obtain ⟨c, s, r, hc, hs, hr, _, _, _, rfl⟩ := cleanCategoricals_ok h
  exact wellFormed_setCol
    (wellFormed_setCol (wellFormed_setCol hw
        (by simp [wellFormed_getCol? hw hc]) _)
      (by simp [wellFormed_getCol? hw hs]) _)
    (by simp [wellFormed_getCol? hw hr]) _

theorem wf_transform_columns {df out : DataFrame} {k : ℕ}
    (h : transform_columns df = .ok out) (hw : wellFormed df k) :
    wellFormed out k := by
  obtain ⟨d1, d2, d3, d4, d5, d6, h1, h2, h3, h4, h5, h6, h7⟩ :=
    transform_columns_ok h
  exact wf_cleanCategoricals h7 (wf_addDateParts h6 (wf_addProfitMargin h5
    (wf_addProfit h4 (wf_addSalePrice h3 (wf_addDiscount h2
      (wf_convertOrderDate h1 (wf_renameColumns hw)))))))

theorem schema_transform_columns {df out : DataFrame}
    (h : transform_columns df = .ok out) :
    schema out =
      setSchema (setSchema (setSchema (setSchema (setSchema (setSchema
        (setSchema (setSchema (setSchema (setSchema (setSchema (setSchema
          ((schema df).map normalizeName)
          "order_date") "discount") "sale_price") "profit") "profit_margin")
          "year") "month") "month_name") "quarter") "category") "sub_category")
          "region" := by
  obtain ⟨d1, d2, d3, d4, d5, d6, h1, h2, h3, h4, h5, h6, h7⟩ :=
    transform_columns_ok h
  obtain ⟨c, c', hc, hmap, rfl⟩ := convertOrderDate_ok h1
  obtain ⟨lp, dp, hlp, hdp, rfl⟩ := addDiscount_ok h2
  obtain ⟨lp2, dc2, hlp2, hdc2, rfl⟩ := addSalePrice_ok h3
  obtain ⟨sp3, cp3, hsp3, hcp3, rfl⟩ := addProfit_ok h4
  obtain ⟨sp4, pf4, hsp4, hpf4, rfl⟩ := addProfitMargin_ok h5
  obtain ⟨od6, hod6, rfl⟩ := addDateParts_ok h6
  obtain ⟨c7, s7, r7, hc7, hs7, hr7, _, _, _, rfl⟩ := cleanCategoricals_ok h7
  simp only [schema_setCol, schema_renameColumns]

/-! ### Tracking the derived columns to the output frame -/

theorem transform_columns_derived {df out : DataFrame}
    (h : transform_columns df = .ok out) :
    ∃ lp dp cp,
      getCol? out "list_price" = some lp ∧
      getCol? out "discount_percent" = some dp ∧
      getCol? out "cost_price" = some cp ∧
      getCol? out "discount" = some (discountCol lp dp) ∧
      getCol? out "sale_price" = some (salePriceCol lp dp) ∧
      getCol? out "profit" = some (profitCol lp dp cp) ∧
      getCol? out "profit_margin" = some (profitMarginCol lp dp cp) := by
  obtain ⟨d1, d2, d3, d4, d5, d6, h1, h2, h3, h4, h5, h6, h7⟩ :=
    transform_columns_ok h
  obtain ⟨lp, dp, hlp, hdp, e2⟩ := addDiscount_ok h2
  obtain ⟨lp2, dc2, hlp2, hdc2, e3⟩ := addSalePrice_ok h3
  obtain ⟨sp3, cp3, hsp3, hcp3, e4⟩ := addProfit_ok h4
  obtain ⟨sp4, pf4, hsp4, hpf4, e5⟩ := addProfitMargin_ok h5
  obtain ⟨od6, hod6, e6⟩ := addDateParts_ok h6
  obtain ⟨c7, s7, r7, hc7, hs7, hr7, _, _, _, e7⟩ := cleanCategoricals_ok h7
  -- identify the stage-time lookups
  rw [e2, getCol?_setCol_ne _ _ (by decide)] at hlp2
  rw [hlp, Option.some.injEq] at hlp2
  subst hlp2
  rw [e2, getCol?_setCol_self, Option.some.injEq] at hdc2
  subst hdc2
  rw [e3, getCol?_setCol_self, Option.some.injEq] at hsp3
  subst hsp3
  rw [e3, getCol?_setCol_ne _ _ (by decide), e2,
      getCol?_setCol_ne _ _ (by decide)] at hcp3
  rw [e4, getCol?_setCol_ne _ _ (by decide), e3, getCol?_setCol_self,
      Option.some.injEq] at hsp4
  subst hsp4
  rw [e4, getCol?_setCol_self, Option.some.injEq] at hpf4
  subst hpf4
  -- lookups on the final frame pass through the later `setCol`s
  have pass7 : ∀ n, n ≠ "category" → n ≠ "sub_category" → n ≠ "region" →
      getCol? out n = getCol? d6 n := by
    intro n hn1 hn2 hn3
    rw [e7, getCol?_setCol_ne _ _ hn3, getCol?_setCol_ne _ _ hn2,
        getCol?_setCol_ne _ _ hn1]
  have pass6 : ∀ n, n ≠ "year" → n ≠ "month" → n ≠ "month_name" →
      n ≠ "quarter" → getCol? d6 n = getCol? d5 n := by
    intro n hn1 hn2 hn3 hn4
    rw [e6, getCol?_setCol_ne _ _ hn4, getCol?_setCol_ne _ _ hn3,
        getCol?_setCol_ne _ _ hn2, getCol?_setCol_ne _ _ hn1]
  have pass : ∀ n, n ≠ "category" → n ≠ "sub_category" → n ≠ "region" →
      n ≠ "year" → n ≠ "month" → n ≠ "month_name" → n ≠ "quarter" →
      getCol? out n = getCol? d5 n := by
    intro n hn1 hn2 hn3 hn4 hn5 hn6 hn7
    rw [pass7 n hn1 hn2 hn3, pass6 n hn4 hn5 hn6 hn7]
  refine ⟨lp, dp, cp3, ?_, ?_, ?_, ?_, ?_, ?_, ?_⟩
  · rw [pass _ (by decide) (by decide) (by decide) (by decide) (by decide)
        (by decide) (by decide), e5, getCol?_setCol_ne _ _ (by decide), e4,
        getCol?_setCol_ne _ _ (by decide), e3,
        getCol?_setCol_ne _ _ (by decide), e2,
        getCol?_setCol_ne _ _ (by decide)]
    exact hlp
  · rw [pass _ (by decide) (by decide) (by decide) (by decide) (by decide)
        (by decide) (by decide), e5, getCol?_setCol_ne _ _ (by decide), e4,
        getCol?_setCol_ne _ _ (by decide), e3,
        getCol?_setCol_ne _ _ (by decide), e2,
        getCol?_setCol_ne _ _ (by decide)]
    exact hdp
  · rw [pass _ (by decide) (by decide) (by decide) (by decide) (by decide)
        (by decide) (by decide), e5, getCol?_setCol_ne _ _ (by decide), e4,
        getCol?_setCol_ne _ _ (by decide), e3,
        getCol?_setCol_ne _ _ (by decide), e2,
        getCol?_setCol_ne _ _ (by decide)]
    exact hcp3
  · rw [pass _ (by decide) (by decide) (by decide) (by decide) (by decide)
        (by decide) (by decide), e5, getCol?_setCol_ne _ _ (by decide), e4,
        getCol?_setCol_ne _ _ (by decide), e3,
        getCol?_setCol_ne _ _ (by decide), e2, getCol?_setCol_self]
    rfl
  · rw [pass _ (by decide) (by decide) (by decide) (by decide) (by decide)
        (by decide) (by decide), e5, getCol?_setCol_ne _ _ (by decide), e4,
        getCol?_setCol_ne _ _ (by decide), e3, getCol?_setCol_self]
    rfl
  · rw [pass _ (by decide) (by decide) (by decide) (by decide) (by decide)
        (by decide) (by decide), e5, getCol?_setCol_ne _ _ (by decide), e4,
        getCol?_setCol_self]
    rfl
  · rw [pass _ (by decide) (by decide) (by decide) (by decide) (by decide)
        (by decide) (by decide), e5, getCol?_setCol_self]
    rfl

/-! ### Ingestion and file-system lemmas -/

theorem inferColumn_length (raw : List String) :
    (inferColumn raw).length = raw.length := by
  unfold inferColumn
  dsimp only
  split <;> simp

theorem schema_read_csv {text : String} {hdr : String} {rows : List String}
    (h : splitLines text = hdr :: rows) :
    schema (read_csv text) = splitFields hdr := by
  unfold read_csv
  rw [h]
  simp only [schema, List.map_map]
  have : ((·.1) ∘ fun p : ℕ × String =>
      (p.2, inferColumn (rows.map fun r => (splitFields r).getD p.1 ""))) =
      Prod.snd := rfl
  rw [this, List.enum_map_snd]

theorem wf_read_csv {text : String} {hdr : String} {rows : List String}
    (h : splitLines text = hdr :: rows) :
    wellFormed (read_csv text) rows.length := by
  unfold read_csv
  rw [h]
  intro p hp
  simp only [List.mem_map] at hp
  obtain ⟨q, _, rfl⟩ := hp
  simp [inferColumn_length]

theorem ne_nil_of_getCol? {df : DataFrame} {n : String} {c : List Cell}
    (h : getCol? df n = some c) : df ≠ [] := by
  intro he
  subst he
  simp [getCol?] at h

theorem nRows_of_wellFormed {df : DataFrame} {k : ℕ} (hw : wellFormed df k)
    (hne : df ≠ []) : nRows df = k := by
  cases df with
  | nil => exact absurd rfl hne
  | cons p rest => exact hw p (List.mem_cons_self _ _)

theorem length_toCsvLines (df : DataFrame) :
    (toCsvLines df).length = nRows df + 1 := by
  simp [toCsvLines]

theorem getFile_setFile_self (l : List (String × String)) (p c : String) :
    getFile (setFile l p c) p = some c := by
  induction l with
  | nil => simp [setFile, getFile]
  | cons q rest ih =>
    obtain ⟨a, b⟩ := q
    by_cases h : a = p <;> simp [setFile, getFile, h, ih]

theorem getFile_setFile_ne (l : List (String × String)) {q p : String}
    (c : String) (h : q ≠ p) : getFile (setFile l p c) q = getFile l q := by
  induction l with
  | nil => simp [setFile, getFile, Ne.symm h]
  | cons r rest ih =>
    obtain ⟨a, b⟩ := r
    by_cases ha : a = p
    · subst ha
      simp [setFile, getFile, Ne.symm h]
    · simp [setFile, getFile, ha, ih]

theorem setFile_idem (l : List (String × String)) (p c : String) :
    setFile (setFile l p c) p c = setFile l p c := by
  induction l with
  | nil => simp [setFile]
  | cons q rest ih =>
    obtain ⟨a, b⟩ := q
    by_cases h : a = p <;> simp [setFile, h, ih]

theorem writeFile_ok {fs : FS} {p c : String} {fs' : FS}
    (h : writeFile fs p c = .ok fs') :
    p ∈ fs.writable ∧ fs' = ⟨setFile fs.files p c, fs.writable⟩ := by
  unfold writeFile at h
  split at h
  · cases h
    exact ⟨by assumption, rfl⟩
  · cases h

/-! ### Pointwise facts about the margin, the categorical cleaner and
normalized names -/

theorem marginCell_sale_zero (p : Cell) : marginCell (.num 0) p = .num 0 := by
  simp [marginCell, Cell.neZero]

theorem marginCell_sale_nonzero {q : ℚ} (p : ℚ) (h : q ≠ 0) :
    marginCell (.num q) (.num p) = Cell.round2 (.num (p / q * 100)) := by
  simp [marginCell, Cell.neZero, h, Cell.div, Cell.mul, Cell.num?]

theorem cleanChar_normalized (c : Char) :
    cleanChar (if lowerChar c = ' ' then '_' else lowerChar c) = true := by
  by_cases hsp : lowerChar c = ' '
  · rw [if_pos hsp]
    decide
  · rw [if_neg hsp]
    have h1 : (lowerChar c == ' ') = false := beq_eq_false_iff_ne.2 hsp
    unfold cleanChar
    rw [h1]
    unfold lowerChar isAsciiUpper
    by_cases h : 65 ≤ c.toNat ∧ c.toNat ≤ 90
    · rw [if_pos h]
      obtain ⟨ha, hb⟩ := h
      set n := c.toNat with hn
      interval_cases n <;> decide
    · rw [if_neg h]
      simp only [Bool.not_true, Bool.and_eq_true, Bool.not_eq_true',
        decide_eq_false_iff_not]
      simpa using h

theorem noSpaceNoUpper_normalizeName (s : String) :
    noSpaceNoUpper (normalizeName s) = true := by
  unfold noSpaceNoUpper normalizeName
  show (((s.data.map lowerChar).map fun c =>
    if c = ' ' then '_' else c).all cleanChar) = true
  rw [List.all_map, List.all_map, List.all_eq_true]
  intro c _
  have := cleanChar_normalized c
  simpa [Function.comp] using this

theorem cleanCategoricals_build {df : DataFrame} {c s r : List Cell}
    (hc : getCol? df "category" = some c)
    (hs : getCol? df "sub_category" = some s)
    (hr : getCol? df "region" = some r)
    (hd1 : strDtypeOk c = true) (hd2 : strDtypeOk s = true)
    (hd3 : strDtypeOk r = true) :
    cleanCategoricals df =
      .ok (setCol (setCol (setCol df "category" (c.map Cell.cleanCat))
        "sub_category" (s.map Cell.cleanCat)) "region"
        (r.map Cell.cleanCat)) := by
  unfold cleanCategoricals getColE strAccessorClean
  rw [hc]
  simp only [except_bind_ok]
  rw [if_pos hd1]
  simp only [except_bind_ok]
  rw [getCol?_setCol_ne _ _ (by decide), hs]
  simp only [except_bind_ok]
  rw [if_pos hd2]
  simp only [except_bind_ok]
  rw [getCol?_setCol_ne _ _ (by decide), getCol?_setCol_ne _ _ (by decide), hr]
  simp only [except_bind_ok]
  rw [if_pos hd3]
  simp only [except_bind_ok, except_pure]

/-! ### The heap model: `transform_columns` mutates only its copy -/

theorem transformColumnsRef_spec {h : List DataFrame} {i : ℕ}
    {h' : List DataFrame} {a : ℕ}
    (hres : transformColumnsRef h i = .ok (h', a)) :
    h'.take h.length = h ∧ a = h.length ∧
    transform_columns (h.getD i []) = .ok (h'.getD a []) := by
  unfold transformColumnsRef at hres
  dsimp only at hres
  set df0 := h.getD i [] with hdf0
  set H1 := h ++ [df0] with hH1
  have g1 : H1.getD h.length [] = df0 := by
    rw [hH1]; exact getD_append_self h df0 []
  rw [g1] at hres
  set H2 := H1.set h.length (renameColumns df0) with hH2
  have l1 : H1.length = h.length + 1 := by rw [hH1]; simp
  have l2 : H2.length = h.length + 1 := by rw [hH2]; simp [l1]
  have g2 : H2.getD h.length [] = renameColumns df0 := by
    rw [hH2]; exact getD_set_self _ _ _ _ (by omega)
  rw [g2] at hres
  cases hc3 : convertOrderDate (renameColumns df0) <;> rw [hc3] at hres
  · simp at hres
  rename_i d3
  simp only [except_bind_ok] at hres
  set H3 := H2.set h.length d3 with hH3
  have l3 : H3.length = h.length + 1 := by rw [hH3]; simp [l2]
  have g3 : H3.getD h.length [] = d3 := by
    rw [hH3]; exact getD_set_self _ _ _ _ (by omega)
  rw [g3] at hres
  cases hc4 : addDiscount d3 <;> rw [hc4] at hres
  · simp at hres
  rename_i d4
  simp only [except_bind_ok] at hres
  set H4 := H3.set h.length d4 with hH4
  have l4 : H4.length = h.length + 1 := by rw [hH4]; simp [l3]
  have g4 : H4.getD h.length [] = d4 := by
    rw [hH4]; exact getD_set_self _ _ _ _ (by omega)
  rw [g4] at hres
  cases hc5 : addSalePrice d4 <;> rw [hc5] at hres
  · simp at hres
  rename_i d5
  simp only [except_bind_ok] at hres
  set H5 := H4.set h.length d5 with hH5
  have l5 : H5.length = h.length + 1 := by rw [hH5]; simp [l4]
  have g5 : H5.getD h.length [] = d5 := by
    rw [hH5]; exact getD_set_self _ _ _ _ (by omega)
  rw [g5] at hres
  cases hc6 : addProfit d5 <;> rw [hc6] at hres
  · simp at hres
  rename_i d6
  simp only [except_bind_ok] at hres
  set H6 := H5.set h.length d6 with hH6
  have l6 : H6.length = h.length + 1 := by rw [hH6]; simp [l5]
  have g6 : H6.getD h.length [] = d6 := by
    rw [hH6]; exact getD_set_self _ _ _ _ (by omega)
  rw [g6] at hres
  cases hc7 : addProfitMargin d6 <;> rw [hc7] at hres
  · simp at hres
  rename_i d7
  simp only [except_bind_ok] at hres
  set H7 := H6.set h.length d7 with hH7
  have l7 : H7.length = h.length + 1 := by rw [hH7]; simp [l6]
  have g7 : H7.getD h.length [] = d7 := by
    rw [hH7]; exact getD_set_self _ _ _ _ (by omega)
  rw [g7] at hres
  cases hc8 : addDateParts d7 <;> rw [hc8] at hres
  · simp at hres
  rename_i d8
  simp only [except_bind_ok] at hres
  set H8 := H7.set h.length d8 with hH8
  have l8 : H8.length = h.length + 1 := by rw [hH8]; simp [l7]
  have g8 : H8.getD h.length [] = d8 := by
    rw [hH8]; exact getD_set_self _ _ _ _ (by omega)
  rw [g8] at hres
  cases hc9 : cleanCategoricals d8 <;> rw [hc9] at hres
  · simp at hres
  rename_i d9
  simp only [except_bind_ok, except_pure, Except.ok.injEq,
    Prod.mk.injEq] at hres
  obtain ⟨hh', ha⟩ := hres
  subst ha
  have htake : (H8.set h.length d9).take h.length = h := by
    rw [hH8, hH7, hH6, hH5, hH4, hH3, hH2, hH1]
    rw [take_set_of_le _ _ _ _ (le_refl _), take_set_of_le _ _ _ _ (le_refl _),
        take_set_of_le _ _ _ _ (le_refl _), take_set_of_le _ _ _ _ (le_refl _),
        take_set_of_le _ _ _ _ (le_refl _), take_set_of_le _ _ _ _ (le_refl _),
        take_set_of_le _ _ _ _ (le_refl _), take_set_of_le _ _ _ _ (le_refl _)]
    exact take_append_self h [df0]
  have hget : (H8.set h.length d9).getD h.length [] = d9 :=
    getD_set_self _ _ _ _ (by omega)
  refine ⟨hh' ▸ htake, rfl, ?_⟩
  rw [← hh', hget]
  unfold transform_columns
  dsimp only
  rw [hc3]
  simp only [except_bind_ok]
  rw [hc4]
  simp only [except_bind_ok]
  rw [hc5]
  simp only [except_bind_ok]
  rw [hc6]
  simp only [except_bind_ok]
  rw [hc7]
  simp only [except_bind_ok]
  rw [hc8]
  simp only [except_bind_ok]
  exact hc9

/-! ### The claims -/

/-- C1: for every row of a successfully transformed frame, the
`profit_margin` column is the element-wise `marginCell` of the
`sale_price` and `profit` columns, where a zero sale price gives the
concrete number `0` and a nonzero sale price gives
`round2(profit / sale_price * 100)`. -/
theorem c1_profit_margin_rule {df out : DataFrame} {sp pf : List Cell}
    (h : transform_columns df = .ok out)
    (hsp : getCol? out "sale_price" = some sp)
    (hpf : getCol? out "profit" = some pf) :
    getCol? out "profit_margin" = some (List.zipWith marginCell sp pf) ∧
    (∀ p, marginCell (.num 0) p = .num 0) ∧
    (∀ q p : ℚ, q ≠ 0 →
      marginCell (.num q) (.num p) = Cell.round2 (.num (p / q * 100))) := by
  obtain ⟨lp, dp, cp, _, _, _, _, hs', hp', hm'⟩ := transform_columns_derived h
  rw [hsp] at hs'
  injection hs' with es
  rw [hpf] at hp'
  injection hp' with ep
  subst es
  subst ep
  exact ⟨hm', marginCell_sale_zero, fun q p hq => marginCell_sale_nonzero p hq⟩

/-- C1 witness: the zero-price fixture row has `sale_price = 0` and its
`profit_margin` is the concrete number `0`, not a missing value. -/
theorem c1_profit_margin_rule_witness :
    getCol? zeroOut "profit_margin" = some [Cell.num 0] ∧
    marginCell (.num 0) (.num 0) = .num 0 := by
  have H := @c1_profit_margin_rule (read_csv zeroCsv) zeroOut
    [Cell.num 0] [Cell.num 0] (by with_unfolding_all rfl)
    (by with_unfolding_all rfl) (by with_unfolding_all rfl)
  exact ⟨H.1.trans (by with_unfolding_all rfl), H.2.1 (.num 0)⟩

/-- C2 counterexample: the cell text `null` is none of the five spec
tokens, yet ingestion turns it into a missing value, because `read_csv`
keeps its default missing-value tokens alongside `na_values`. -/
theorem c2_placeholder_counterexample :
    parseRawCell "null" = none ∧ "null" ∉ na_values := by
  exact ⟨by decide, by decide⟩

/-- C2 (amended): a cell becomes missing iff its text is one of the five
`na_values` tokens or one of the `read_csv` default missing tokens; any
other cell text is preserved unchanged, in any column. -/
theorem c2_placeholder_tokens (s : String) :
    (parseRawCell s = none ↔ (s ∈ na_values ∨ s ∈ defaultNaValues)) ∧
    (s ∉ na_values → s ∉ defaultNaValues → parseRawCell s = some s) := by
  unfold parseRawCell
  by_cases h : s ∈ na_values ∨ s ∈ defaultNaValues
  · rw [if_pos h]
    exact ⟨by simp [h], fun h1 h2 => absurd h (by tauto)⟩
  · rw [if_neg h]
    exact ⟨by simp [h], fun _ _ => rfl⟩

/-- C2 witness: a legitimate value is preserved. -/
theorem c2_placeholder_tokens_witness :
    parseRawCell "Second Class" = some "Second Class" :=
  (c2_placeholder_tokens "Second Class").2 (by decide) (by decide)

/-- C3 counterexample: with an unwritable output path the pipeline run
ends in the write error and returns no table, even though the in-memory
transformation of the same input succeeds. -/
theorem c3_returns_table_counterexample :
    clean_retail_orders roFS "orders.csv" "orders_clean.csv" =
      .error .writeError ∧
    (transform_columns (read_csv exampleCsv)).isOk = true := by
  exact ⟨by with_unfolding_all rfl, by with_unfolding_all rfl⟩

/-- C3 (amended): when the output path is unwritable,
`clean_retail_orders` propagates the write error and does not return the
computed table, even though the transformation itself succeeded. -/
theorem c3_write_failure_raises {fs : FS} {i o text : String} {df : DataFrame}
    (hread : readFile fs i = some text)
    (htr : transform_columns (read_csv text) = .ok df)
    (hw : o ∉ fs.writable) :
    clean_retail_orders fs i o = .error .writeError := by
  unfold clean_retail_orders load_raw_data
  rw [hread]
  simp only [except_bind_ok]
  rw [htr]
  simp only [except_bind_ok]
  unfold writeFile
  rw [if_neg hw]
  rfl

/-- C3 witness: the amended behaviour at the concrete read-only store. -/
theorem c3_write_failure_raises_witness :
    clean_retail_orders roFS "orders.csv" "orders_clean.csv" =
      .error .writeError :=
  @c3_write_failure_raises roFS "orders.csv" "orders_clean.csv" exampleCsv
    exampleOut (by with_unfolding_all rfl) (by with_unfolding_all rfl)
    (by decide)

/-- C4: for a valid input whose header normalizes to the expected raw
schema, a successful pipeline run yields a frame with exactly the 24
canonical columns in the canonical order, writes that frame to the
output path, and the first line of the written file is the canonical
header. -/
theorem c4_export_schema {fs : FS} {i o : String} {fs' : FS} {df : DataFrame}
    {text hdr : String} {rows : List String}
    (hread : readFile fs i = some text)
    (hsplit : splitLines text = hdr :: rows)
    (hhdr : (splitFields hdr).map normalizeName = rawSchema)
    (hok : clean_retail_orders fs i o = .ok (fs', df)) :
    schema df = canonicalSchema ∧
    readFile fs' o = some (toCsv df) ∧
    (toCsvLines df).headD "" = joinWith "," canonicalSchema := by
  obtain ⟨text', hr', htr, hw⟩ := clean_retail_orders_ok hok
  rw [hread] at hr'
  injection hr' with he
  subst he
  have hschema : schema df = canonicalSchema := by
    rw [schema_transform_columns htr, schema_read_csv hsplit, hhdr]
    decide
  obtain ⟨hmem, hfs'⟩ := writeFile_ok hw
  refine ⟨hschema, ?_, ?_⟩
  · rw [hfs']
    exact getFile_setFile_self _ _ _
  · show joinWith "," (schema df) = joinWith "," canonicalSchema
    rw [hschema]

/-- C4 witness: the schema contract at the concrete example extract. -/
theorem c4_export_schema_witness :
    schema exampleOut = canonicalSchema ∧
    readFile exampleFS2 "orders_clean.csv" = some (toCsv exampleOut) ∧
    (toCsvLines exampleOut).headD "" = joinWith "," canonicalSchema :=
  @c4_export_schema exampleFS "orders.csv" "orders_clean.csv" exampleFS2
    exampleOut exampleCsv
    "Order Id,Order Date,Ship Mode,Segment,Country,City,State,Postal Code,Region,Category,Sub Category,Product Id,cost price,List Price,Quantity,Discount Percent"
    ["1,2023-03-01,Second Class,Consumer,United States,Henderson,Kentucky,42420,South,Furniture,Bookcases,FUR-BO-10001798,240,260,2,2"]
    (by with_unfolding_all rfl) (by with_unfolding_all rfl)
    (by with_unfolding_all rfl) (by with_unfolding_all rfl)

/-- C5: in every successfully transformed frame, the `discount`,
`sale_price`, `profit` and `profit_margin` columns are the element-wise
derivations of `list_price`, `discount_percent` and `cost_price`
(`discount = list_price * discount_percent / 100`,
`sale_price = list_price - discount`, `profit = sale_price - cost_price`),
with numeric cells combining by exact rational arithmetic. -/
theorem c5_derivation_formulas {df out : DataFrame} {lp dp cp : List Cell}
    (h : transform_columns df = .ok out)
    (hlp : getCol? out "list_price" = some lp)
    (hdp : getCol? out "discount_percent" = some dp)
    (hcp : getCol? out "cost_price" = some cp) :
    getCol? out "discount" = some (discountCol lp dp) ∧
    getCol? out "sale_price" = some (salePriceCol lp dp) ∧
    getCol? out "profit" = some (profitCol lp dp cp) ∧
    getCol? out "profit_margin" = some (profitMarginCol lp dp cp) ∧
    (∀ a b : ℚ, Cell.div (Cell.mul (.num a) (.num b)) (.num 100) =
      .num (a * b / 100)) ∧
    (∀ a b : ℚ, Cell.sub (.num a) (.num b) = .num (a - b)) := by
  obtain ⟨lp', dp', cp', hlp', hdp', hcp', hd', hs', hp', hm'⟩ :=
    transform_columns_derived h
  rw [hlp] at hlp'
  injection hlp' with e1
  rw [hdp] at hdp'
  injection hdp' with e2
  rw [hcp] at hcp'
  injection hcp' with e3
  subst e1
  subst e2
  subst e3
  refine ⟨hd', hs', hp', hm', ?_, ?_⟩
  · intro a b
    have h100 : (100 : ℚ) ≠ 0 := by norm_num
    simp [Cell.mul, Cell.div, Cell.num?, h100]
  · intro a b
    simp [Cell.sub, Cell.num?]

/-- C5 witness: the spec example row (`list_price=260`,
`discount_percent=2`, `cost_price=240`) derives `discount=5.2`,
`sale_price=254.8`, `profit=14.8`, `profit_margin=5.81`. -/
theorem c5_derivation_formulas_witness :
    getCol? exampleOut "discount" = some [Cell.num 5.2] ∧
    getCol? exampleOut "sale_price" = some [Cell.num 254.8] ∧
    getCol? exampleOut "profit" = some [Cell.num 14.8] ∧
    getCol? exampleOut "profit_margin" = some [Cell.num 5.81] := by
  have H := @c5_derivation_formulas (read_csv exampleCsv) exampleOut
    [Cell.num 260] [Cell.num 2] [Cell.num 240]
    (by with_unfolding_all rfl) (by with_unfolding_all rfl)
    (by with_unfolding_all rfl) (by with_unfolding_all rfl)
  exact ⟨H.1.trans (by with_unfolding_all rfl),
    H.2.1.trans (by with_unfolding_all rfl),
    H.2.2.1.trans (by with_unfolding_all rfl),
    H.2.2.2.1.trans (by with_unfolding_all rfl)⟩

/-- C6: the normalization stage renames every column of any input frame
by the lowercase-and-underscore mapping, so every output column name has
no space and no ASCII capital. -/
theorem c6_normalization_all_columns (df : DataFrame) :
    schema (renameColumns df) = (schema df).map normalizeName ∧
    (schema (renameColumns df)).all noSpaceNoUpper = true := by
  refine ⟨schema_renameColumns df, ?_⟩
  rw [schema_renameColumns, List.all_map, List.all_eq_true]
  intro s _
  simpa [Function.comp] using noSpaceNoUpper_normalizeName s

/-- C7: a successful pipeline run on a file with one header line and
`rows` data lines produces a frame whose every column has exactly
`rows.length` cells, whose row count is `rows.length`, and whose export
text has one line per row plus the header. -/
theorem c7_row_count_preserved {fs : FS} {i o : String} {fs' : FS}
    {df : DataFrame} {text hdr : String} {rows : List String}
    (hread : readFile fs i = some text)
    (hsplit : splitLines text = hdr :: rows)
    (hok : clean_retail_orders fs i o = .ok (fs', df)) :
    wellFormed df rows.length ∧ nRows df = rows.length ∧
    (toCsvLines df).length = rows.length + 1 := by
  obtain ⟨text', hr', htr, _⟩ := clean_retail_orders_ok hok
  rw [hread] at hr'
  injection hr' with he
  subst he
  have hwf := wf_transform_columns htr (wf_read_csv hsplit)
  have hne : df ≠ [] := by
    obtain ⟨lp, dp, cp, h1, _⟩ := transform_columns_derived htr
    exact ne_nil_of_getCol? h1
  have hn := nRows_of_wellFormed hwf hne
  exact ⟨hwf, hn, by rw [length_toCsvLines, hn]⟩

/-- C7 witness: the one-row example extract keeps its single row. -/
theorem c7_row_count_preserved_witness :
    wellFormed exampleOut 1 ∧ nRows exampleOut = 1 ∧
    (toCsvLines exampleOut).length = 2 :=
  @c7_row_count_preserved exampleFS "orders.csv" "orders_clean.csv"
    exampleFS2 exampleOut exampleCsv
    "Order Id,Order Date,Ship Mode,Segment,Country,City,State,Postal Code,Region,Category,Sub Category,Product Id,cost price,List Price,Quantity,Discount Percent"
    ["1,2023-03-01,Second Class,Consumer,United States,Henderson,Kentucky,42420,South,Furniture,Bookcases,FUR-BO-10001798,240,260,2,2"]
    (by with_unfolding_all rfl) (by with_unfolding_all rfl)
    (by with_unfolding_all rfl)

/-- C8 counterexample: the cleaning step does fail on missing values.
An all-placeholder raw column ingests to an all-missing (`float64`)
column, and on a frame whose `category` column is that single missing
cell the step raises the `.str` accessor `AttributeError` instead of
succeeding. -/
theorem c8_categorical_counterexample :
    inferColumn ["Not Available"] = [Cell.na] ∧
    cleanCategoricals
      [("category", [Cell.na]),
       ("sub_category", [Cell.str "Chairs"]),
       ("region", [Cell.str "South"])] =
      .error (.attributeError "category") := by
  exact ⟨by decide, by rfl⟩

/-- C8 (amended): when the three categorical columns exist and each is
either empty or holds at least one string value (the column is then
object-dtyped and the `.str` accessor accepts it), the cleaning step
succeeds, maps exactly `category`, `sub_category` and `region` cell-wise
through strip-and-title-case, leaves every other column untouched, keeps
a missing value among the strings missing, and turns
`" office supplies "` into `"Office Supplies"`; a categorical column
with no string at all (in particular an all-missing one) instead raises
the accessor error. -/
theorem c8_categorical_cleaning {df : DataFrame} {c s r : List Cell}
    (hc : getCol? df "category" = some c)
    (hs : getCol? df "sub_category" = some s)
    (hr : getCol? df "region" = some r)
    (hd1 : strDtypeOk c = true) (hd2 : strDtypeOk s = true)
    (hd3 : strDtypeOk r = true) :
    (∃ out, cleanCategoricals df = .ok out ∧
      getCol? out "category" = some (c.map Cell.cleanCat) ∧
      getCol? out "sub_category" = some (s.map Cell.cleanCat) ∧
      getCol? out "region" = some (r.map Cell.cleanCat) ∧
      ∀ n, n ≠ "category" → n ≠ "sub_category" → n ≠ "region" →
        getCol? out n = getCol? df n) ∧
    Cell.cleanCat .na = .na ∧
    Cell.cleanCat (.str " office supplies ") = .str "Office Supplies" := by
  refine ⟨⟨_, cleanCategoricals_build hc hs hr hd1 hd2 hd3, ?_, ?_, ?_, ?_⟩,
    rfl, by decide⟩
  · rw [getCol?_setCol_ne _ _ (by decide), getCol?_setCol_ne _ _ (by decide),
        getCol?_setCol_self]
  · rw [getCol?_setCol_ne _ _ (by decide), getCol?_setCol_self]
  · rw [getCol?_setCol_self]
  · intro n h1 h2 h3
    rw [getCol?_setCol_ne _ _ h3, getCol?_setCol_ne _ _ h2,
        getCol?_setCol_ne _ _ h1]

/-- C8 witness: the cleaning step on a concrete frame with a cell that
needs trimming and title-casing, a missing cell beside a string, and an
unrelated `city` column. -/
theorem c8_categorical_cleaning_witness :
    (∃ out, cleanCategoricals catDf = .ok out ∧
      getCol? out "category" =
        some ([Cell.str " office supplies ", Cell.na].map Cell.cleanCat) ∧
      getCol? out "sub_category" =
        some ([Cell.str "Bookcases", Cell.str "Chairs"].map Cell.cleanCat) ∧
      getCol? out "region" =
        some ([Cell.str "South", Cell.str "West"].map Cell.cleanCat) ∧
      ∀ n, n ≠ "category" → n ≠ "sub_category" → n ≠ "region" →
        getCol? out n = getCol? catDf n) ∧
    Cell.cleanCat .na = .na ∧
    Cell.cleanCat (.str " office supplies ") = .str "Office Supplies" :=
  @c8_categorical_cleaning catDf
    [Cell.str " office supplies ", Cell.na]
    [Cell.str "Bookcases", Cell.str "Chairs"]
    [Cell.str "South", Cell.str "West"]
    (by decide) (by decide) (by decide) (by decide) (by decide) (by decide)

/-- C9: the pipeline is idempotent: when the input and output paths
differ and a first run succeeds, a second run on the resulting file
system returns the identical frame and leaves the file system (and so
the output file contents) exactly as after the first run. -/
theorem c9_idempotent {fs fs1 : FS} {i o : String} {df1 : DataFrame}
    (hne : i ≠ o)
    (h1 : clean_retail_orders fs i o = .ok (fs1, df1)) :
    clean_retail_orders fs1 i o = .ok (fs1, df1) := by
  obtain ⟨text, hr, htr, hw⟩ := clean_retail_orders_ok h1
  obtain ⟨hmem, hfs1⟩ := writeFile_ok hw
  subst hfs1
  unfold clean_retail_orders load_raw_data
  have hr1 : readFile ⟨setFile fs.files o (toCsv df1), fs.writable⟩ i
      = some text := by
    show getFile (setFile fs.files o (toCsv df1)) i = some text
    rw [getFile_setFile_ne _ _ hne]
    exact hr
  rw [hr1]
  simp only [except_bind_ok]
  rw [htr]
  simp only [except_bind_ok]
  unfold writeFile
  dsimp only
  rw [if_pos hmem]
  simp only [except_bind_ok, except_pure]
  rw [setFile_idem]

/-- C9 witness: a second run over the example store reproduces the first
run exactly. -/
theorem c9_idempotent_witness :
    clean_retail_orders exampleFS2 "orders.csv" "orders_clean.csv" =
      .ok (exampleFS2, exampleOut) :=
  @c9_idempotent exampleFS exampleFS2 "orders.csv" "orders_clean.csv"
    exampleOut (by decide) (by with_unfolding_all rfl)

/-- C10: run on a heap of frames, `transform_columns` leaves every
pre-existing frame unchanged (in particular its argument frame), places
its result at a fresh address, and that result is exactly the value
semantics of `transform_columns` on the input frame. -/
theorem c10_no_mutation {h : List DataFrame} {i : ℕ} {h' : List DataFrame}
    {a : ℕ} (hres : transformColumnsRef h i = .ok (h', a)) :
    h'.take h.length = h ∧ a = h.length ∧
    transform_columns (h.getD i []) = .ok (h'.getD a []) :=
  transformColumnsRef_spec hres

/-- C10 witness: on a one-frame heap holding the example extract, the
input frame is untouched and the result sits at the fresh address `1`. -/
theorem c10_no_mutation_witness :
    refHeap.take 1 = [read_csv exampleCsv] ∧ refAddr = 1 ∧
    transform_columns (read_csv exampleCsv) = .ok (refHeap.getD refAddr []) :=
  @c10_no_mutation [read_csv exampleCsv] 0 refHeap refAddr
    (by with_unfolding_all rfl)

end RetailClean
